import Mathlib

/-!
Shallow embedding of the Kaleidoscope front end from
`src/kaleidoscope/lexer_parser_ast_cgen.cpp` (the complete pipeline:
lexer, recursive-descent / precedence-climbing parser, AST, LLVM-style
code generation, top-level driver loop).  The companion file
`src/kaleidoscope/lexer_parser_ast.cpp` is an earlier iteration of the
same lexer/parser without code generation; where the two files agree the
embedding below covers both.

Modelling conventions:
* The C character stream (stdin with the one-character `LastChar`
  lookahead cell) becomes an explicit pair `Option Char × List Char`:
  `none` stands for `EOF` in the lookahead cell, the list is the not yet
  read input.
* Tokens carry their payload (the C code communicates `IdentifierStr` /
  `NumVal` through globals).  A number token carries the exact consumed
  literal string `NumStr`; the `strtod` conversion to `double` happens
  at the C boundary and no claim depends on the converted value, so the
  literal string faithfully identifies the `double Val` of a
  `NumberExprAST`.
* The parser works on a `List Tok` whose head plays the role of the
  global `CurTok`; `getNextToken` is `List.tail`, and reading `CurTok`
  past the end of the list yields `Tok.eof` (the real lexer returns
  `tok_eof` forever once the input is exhausted).
* `Error`/`ErrorP`/`ErrorV`/`ErrorF` print a message and return
  `nullptr`; callers test for `nullptr` and propagate it.  This is
  modelled with `Except String`: an originating failure carries the
  message that the C code prints, propagation keeps the message.
* Functions whose C recursion is not structural (the lexer's comment
  restart, the mutually recursive parser) take an explicit fuel
  argument; fuel is always instantiated large enough, and for the lexer
  a fuel-irrelevance lemma shows any fuel above the input length gives
  the same answer.
-/

namespace Kaleidoscope

/-! ## Lexer (`gettok`, lines 42–90 of `lexer_parser_ast_cgen.cpp`) -/

/-- Tokens, as in `enum Token` plus the payload globals: `tok_eof`,
`tok_def`, `tok_extern`, `tok_identifier` (with `IdentifierStr`),
`tok_number` (with `NumStr`, converted by `strtod` at the boundary), and
any other character returned as itself ("operator" token). -/
inductive Tok where
  | eof
  | kwDef
  | kwExtern
  | ident (s : String)
  | num (s : String)
  | op (c : Char)
deriving DecidableEq

/-- C `getchar()` on the modelled stream: pop the next character, or
report end of input (`none`). -/
def getchar : List Char → Option Char × List Char
  | [] => (none, [])
  | c :: r => (some c, r)

/-- C `isspace` in the default locale restricted to the characters the
char type can hold: space, `\t`, `\n`, vertical tab, form feed, `\r`. -/
def isspaceC (c : Char) : Bool :=
  c == ' ' || c == '\t' || c == '\n' || c == '\x0b' || c == '\x0c' || c == '\r'

/-- C `isalnum`: letters or decimal digits. -/
def isalnumC (c : Char) : Bool := c.isAlpha || c.isDigit

/-- The `while (isspace(LastChar)) LastChar = getchar();` loop of
`gettok`.  First component of the result is the lookahead cell after the
loop, second is the remaining input. -/
def skipWS : Option Char → List Char → Option Char × List Char
  | none, input => (none, input)
  | some c, input =>
    if isspaceC c then
      match input with
      | [] => (none, [])
      | d :: r => skipWS (some d) r
    else (some c, input)

/-- The identifier loop
`while (isalnum((LastChar = getchar()))) IdentifierStr += LastChar;`:
`acc` already holds the first character. -/
def readIdent (acc : String) : List Char → String × Option Char × List Char
  | [] => (acc, none, [])
  | c :: r => if isalnumC c then readIdent (acc.push c) r else (acc, some c, r)

/-- The number loop
`do { NumStr += LastChar; LastChar = getchar(); } while (isdigit(LastChar) || LastChar == '.');`
(a do-while: the current lookahead is always appended before the next
character is tested). -/
def readNum (acc : String) (look : Char) : List Char → String × Option Char × List Char
  | [] => (acc.push look, none, [])
  | c :: r =>
    if c.isDigit || c == '.' then readNum (acc.push look) c r
    else (acc.push look, some c, r)

/-- The comment loop
`do LastChar = getchar(); while (LastChar != EOF && LastChar != '\n' && LastChar != '\r');`. -/
def skipComment : List Char → Option Char × List Char
  | [] => (none, [])
  | c :: r => if c == '\n' || c == '\r' then (some c, r) else skipComment r

/-- Fuel-indexed `gettok` (lines 42–90).  The only non-structural
recursion in the C code is the restart after a comment
(`if (LastChar != EOF) return gettok();`), which consumes at least one
input character, so any fuel above the input length is enough (see
`gettokF_fuel_irrelevant`).  Out of fuel returns `Tok.eof` — never
reached from the wrapper `gettok`. -/
def gettokF : Nat → Option Char → List Char → Tok × Option Char × List Char
  | 0, look, input => (.eof, look, input)
  | fuel + 1, look, input =>
    match skipWS look input with
    | (none, input1) => (.eof, none, input1)
    | (some c, input1) =>
      if c.isAlpha then
        match readIdent (String.singleton c) input1 with
        | (s, look2, input2) =>
          if s = "def" then (.kwDef, look2, input2)
          else if s = "extern" then (.kwExtern, look2, input2)
          else (.ident s, look2, input2)
      else if c.isDigit || c == '.' then
        match readNum "" c input1 with
        | (s, look2, input2) => (.num s, look2, input2)
      else if c == '#' then
        match skipComment input1 with
        | (some d, input2) => gettokF fuel (some d) input2
        | (none, input2) => (.eof, none, input2)
      else
        (.op c, getchar input1)

/-- The lexer entry point `gettok`, with fuel that is always sufficient. -/
def gettok (look : Option Char) (input : List Char) : Tok × Option Char × List Char :=
  gettokF (input.length + 1) look input

/-- Run the lexer to the end of input, collecting the token sequence up
to (excluding) `tok_eof`. -/
def lexAll : Nat → Option Char → List Char → List Tok
  | 0, _, _ => []
  | fuel + 1, look, input =>
    match gettok look input with
    | (.eof, _, _) => []
    | (t, look1, input1) => t :: lexAll fuel look1 input1

/-- Tokenize a whole string the way the REPL would see it: the static
`LastChar` cell starts as `' '`. -/
def lexString (s : String) : List Tok :=
  lexAll (s.length + 1) (some ' ') s.toList

/-! ## AST (lines 94–156) -/

/-- The expression node hierarchy `ExprAST` with its four concrete
classes `NumberExprAST` (a `double` value, represented here by its
source literal), `VariableExprAST`, `BinaryExprAST` and `CallExprAST`. -/
inductive ExprAST where
  | NumberExpr (Val : String)
  | VariableExpr (Name : String)
  | BinaryExpr (Op : Char) (LHS RHS : ExprAST)
  | CallExpr (Callee : String) (Args : List ExprAST)

/-- `PrototypeAST`: a function name and its parameter names. -/
structure PrototypeAST where
  Name : String
  Args : List String
deriving DecidableEq

/-- `FunctionAST`: a prototype together with the body expression. -/
structure FunctionAST where
  Proto : PrototypeAST
  Body : ExprAST

/-! ## Parser (lines 158–349) -/

/-- The `BinopPrecedence` map as populated once by `main` (lines
601–604): `'<'` ↦ 10, `'+'` ↦ 20, `'-'` ↦ 20, `'*'` ↦ 40.  `std::map`
`operator[]` yields the default value 0 for every other character. -/
def BinopPrecedence (c : Char) : Int :=
  if c = '<' then 10
  else if c = '+' then 20
  else if c = '-' then 20
  else if c = '*' then 40
  else 0

/-- `GetTokPrecedence` (lines 165–174): non-character tokens (the
negative `tok_*` codes fail `isascii`) and characters whose precedence
entry is `≤ 0` give −1, i.e. "not a binary operator". -/
def GetTokPrecedence (t : Tok) : Int :=
  match t with
  | .op c => let p := BinopPrecedence c; if p ≤ 0 then -1 else p
  | _ => -1

/-- The current token `CurTok`: head of the token list, `tok_eof` when
the stream is exhausted. -/
def curT (ts : List Tok) : Tok := ts.headD .eof

/-- `ParseNumberExpr` (lines 193–198), entered with `CurTok` a number
token carrying `s`: build the node and consume the token. -/
def ParseNumberExpr (s : String) (ts : List Tok) :
    Except String ExprAST × List Tok :=
  (.ok (.NumberExpr s), ts.tail)

mutual

/-- `ParsePrimary` (lines 248–262): dispatch on `CurTok`. -/
def ParsePrimary : Nat → List Tok → Except String ExprAST × List Tok
  | 0, ts => (.error "parser fuel exhausted", ts)
  | fuel + 1, ts =>
    match curT ts with
    | .ident s => ParseIdentifierExpr fuel s ts.tail
    | .num s => ParseNumberExpr s ts
    | .op '(' => ParseParenExpr fuel ts
    | _ => (.error "unknown token when expecting an expression", ts)

/-- `ParseParenExpr` (lines 200–212), entered with `CurTok = '('`. -/
def ParseParenExpr : Nat → List Tok → Except String ExprAST × List Tok
  | 0, ts => (.error "parser fuel exhausted", ts)
  | fuel + 1, ts =>
    match ParseExpression fuel ts.tail with
    | (.error e, ts1) => (.error e, ts1)
    | (.ok v, ts1) =>
      if curT ts1 = .op ')' then (.ok v, ts1.tail)
      else (.error "expected ')'", ts1)

/-- `ParseIdentifierExpr` (lines 214–246): the identifier itself has
already been consumed (`IdName` holds it, `ts` starts at the following
token). -/
def ParseIdentifierExpr : Nat → String → List Tok →
    Except String ExprAST × List Tok
  | 0, _, ts => (.error "parser fuel exhausted", ts)
  | fuel + 1, idName, ts =>
    if curT ts ≠ .op '(' then (.ok (.VariableExpr idName), ts)
    else
      let ts1 := ts.tail
      if curT ts1 = .op ')' then (.ok (.CallExpr idName []), ts1.tail)
      else
        match ParseArgs fuel [] ts1 with
        | (.error e, ts2) => (.error e, ts2)
        | (.ok args, ts2) => (.ok (.CallExpr idName args), ts2.tail)

/-- The argument loop of `ParseIdentifierExpr` (lines 228–241): one
expression, then stop at `')'`, continue past `','`, anything else is an
error.  On success the stream still points at the `')'` (the caller
consumes it). -/
def ParseArgs : Nat → List ExprAST → List Tok →
    Except String (List ExprAST) × List Tok
  | 0, _, ts => (.error "parser fuel exhausted", ts)
  | fuel + 1, acc, ts =>
    match ParseExpression fuel ts with
    | (.error e, ts1) => (.error e, ts1)
    | (.ok arg, ts1) =>
      if curT ts1 = .op ')' then (.ok (acc ++ [arg]), ts1)
      else if curT ts1 = .op ',' then ParseArgs fuel (acc ++ [arg]) ts1.tail
      else (.error "Expected ')' or ',' in argument list", ts1)

/-- `ParseBinOpRHS` (lines 265–292), the precedence-climbing loop.  The
C `while (1)` body is the tail recursion at equal `exprPrec`; the
strictly-higher-precedence case recurses at `tokPrec + 1`. -/
def ParseBinOpRHS : Nat → Int → ExprAST → List Tok →
    Except String ExprAST × List Tok
  | 0, _, _, ts => (.error "parser fuel exhausted", ts)
  | fuel + 1, exprPrec, lhs, ts =>
    let tokPrec := GetTokPrecedence (curT ts)
    if tokPrec < exprPrec then (.ok lhs, ts)
    else
      match curT ts with
      | .op c =>
        match ParsePrimary fuel ts.tail with
        | (.error e, ts2) => (.error e, ts2)
        | (.ok rhs0, ts2) =>
          let nextPrec := GetTokPrecedence (curT ts2)
          if tokPrec < nextPrec then
            match ParseBinOpRHS fuel (tokPrec + 1) rhs0 ts2 with
            | (.error e, ts3) => (.error e, ts3)
            | (.ok rhs, ts3) =>
              ParseBinOpRHS fuel exprPrec (.BinaryExpr c lhs rhs) ts3
          else
            ParseBinOpRHS fuel exprPrec (.BinaryExpr c lhs rhs0) ts2
      | _ => (.ok lhs, ts)

/-- `ParseExpression` (lines 294–301). -/
def ParseExpression : Nat → List Tok → Except String ExprAST × List Tok
  | 0, ts => (.error "parser fuel exhausted", ts)
  | fuel + 1, ts =>
    match ParsePrimary fuel ts with
    | (.error e, ts1) => (.error e, ts1)
    | (.ok lhs, ts1) => ParseBinOpRHS fuel 0 lhs ts1

end

/-- Fuel that is comfortably sufficient for any token list: the parser
consumes at least one token every three nested calls. -/
def parseFuel (ts : List Tok) : Nat := 3 * ts.length + 16

/-- Convenience entry point for whole-expression parsing. -/
def parseExpressionTop (ts : List Tok) : Except String ExprAST × List Tok :=
  ParseExpression (parseFuel ts) ts

/-- The parameter-name loop of `ParsePrototype` (lines 314–316):
`while (getNextToken() == tok_identifier) ArgNames.push_back(IdentifierStr);`.
Entered with the stream at `'('`; each round consumes the current token
and keeps going while the new `CurTok` is an identifier.  Returns the
collected names with the stream at the first non-identifier token. -/
def protoArgs : List Tok → List String × List Tok
  | [] => ([], [])
  | _ :: rest =>
    match curT rest with
    | .ident s =>
      match protoArgs rest with
      | (as, ts') => (s :: as, ts')
    | _ => ([], rest)

/-- `ParsePrototype` (lines 303–322). -/
def ParsePrototype (ts : List Tok) : Except String PrototypeAST × List Tok :=
  match curT ts with
  | .ident fnName =>
    let ts1 := ts.tail
    match curT ts1 with
    | .op '(' =>
      match protoArgs ts1 with
      | (argNames, ts2) =>
        if curT ts2 = .op ')' then (.ok ⟨fnName, argNames⟩, ts2.tail)
        else (.error "Expected ')' in prototype", ts2)
    | _ => (.error "Expected '(' in prototype", ts1)
  | _ => (.error "Expected function name in prototype", ts)

/-- `ParseDefinition` (lines 324–333): consume `def`, a prototype, then
the body expression. -/
def ParseDefinition (fuel : Nat) (ts : List Tok) :
    Except String FunctionAST × List Tok :=
  match ParsePrototype ts.tail with
  | (.error e, ts1) => (.error e, ts1)
  | (.ok proto, ts1) =>
    match ParseExpression fuel ts1 with
    | (.error e, ts2) => (.error e, ts2)
    | (.ok e, ts2) => (.ok ⟨proto, e⟩, ts2)

/-- `ParseTopLevelExpr` (lines 335–343): wrap a bare expression in an
anonymous nullary `FunctionAST`. -/
def ParseTopLevelExpr (fuel : Nat) (ts : List Tok) :
    Except String FunctionAST × List Tok :=
  match ParseExpression fuel ts with
  | (.error e, ts1) => (.error e, ts1)
  | (.ok e, ts1) => (.ok ⟨⟨"", []⟩, e⟩, ts1)

/-- `ParseExtern` (lines 345–349): consume `extern`, then a prototype. -/
def ParseExtern (ts : List Tok) : Except String PrototypeAST × List Tok :=
  ParsePrototype ts.tail

/-! ## Code generation (lines 402–518)

The LLVM backend is modelled at the granularity the lowering code
observes it:
* `TheModule` is a list of functions, each with its name, `arg_size()`
  and whether it is non-`empty()` (has at least one basic block).
* A `Value*` is either a floating constant (`ConstantFP::get`, again
  identified by its literal), one of the current function's arguments,
  or the result of the n-th instruction emitted by `Builder`.
* `Builder` is an append-only instruction trace; `Create*` appends one
  instruction and returns its result value.  Instructions of a function
  erased by `eraseFromParent` stay in the trace (nothing in the lowered
  claims observes instructions of erased functions).
* Expression lowering (`ExprAST::Codegen`) only reads `TheModule` and
  `NamedValues` and only writes through `Builder`, so those two are
  plain parameters of `codegenExpr` and only the trace is threaded.
  The one C++ subtlety hidden by this: `NamedValues[Name]` on a missing
  key default-inserts a `nullptr` entry; a `nullptr` value is treated
  exactly like an absent key everywhere (it errors in
  `VariableExprAST::Codegen` and is overwritten by the bind loop of
  `PrototypeAST::Codegen`), so the read-only map is observationally
  equivalent.
-/

/-- A lowered SSA value handle. -/
inductive Value where
  | constFP (lit : String)
  | arg (idx : Nat)
  | instr (idx : Nat)
deriving DecidableEq

/-- One `Builder.Create*` instruction (lines 427–463, 511). -/
inductive Instr where
  | fadd (l r : Value)
  | fsub (l r : Value)
  | fmul (l r : Value)
  | fcmpULT (l r : Value)
  | uiToFP (v : Value)
  | call (callee : String) (args : List Value)
  | ret (v : Value)
deriving DecidableEq

/-- What lowering observes of one `llvm::Function` registered in
`TheModule`: its name, `arg_size()`, and whether `empty()` is false. -/
structure ModFunc where
  name : String
  nargs : Nat
  hasBody : Bool
deriving DecidableEq

/-- The `NamedValues` map (`std::map<std::string, Value*>`), as an
association list with `std::map` overwrite-on-assign semantics. -/
def NamedV := List (String × Value)

/-- Map lookup: first binding for the key. -/
def lookupNV (k : String) : NamedV → Option Value
  | [] => none
  | (k', v) :: rest => if k' = k then some v else lookupNV k rest

/-- Map assignment `NamedValues[k] = v`: overwrite an existing binding,
otherwise add one. -/
def insertNV (k : String) (v : Value) : NamedV → NamedV
  | [] => [(k, v)]
  | (k', v') :: rest =>
    if k' = k then (k, v) :: rest else (k', v') :: insertNV k v rest

/-- The argument-binding loop of `PrototypeAST::Codegen` (lines
490–495): `AI->setName(Args[Idx]); NamedValues[Args[Idx]] = AI;` with
`AI` the `idx`-th argument of the function. -/
def bindArgs : List String → Nat → NamedV → NamedV
  | [], _, nv => nv
  | a :: rest, idx, nv => bindArgs rest (idx + 1) (insertNV a (.arg idx) nv)

/-- `TheModule->getFunction(name)` together with the position of the
hit.  LLVM keeps named functions in a symbol table; functions created
with an empty name are unnamed and can never be found by lookup, which
is how repeated anonymous top-level expressions avoid colliding. -/
def getFunction : List ModFunc → String → Option (Nat × ModFunc)
  | _, "" => none
  | [], _ => none
  | f :: rest, n =>
    if f.name = n then some (0, f)
    else (getFunction rest n).map fun p => (p.1 + 1, p.2)

/-- Mark the function at position `idx` non-empty (the effect on
`TheModule` of `BasicBlock::Create(..., TheFunction)`). -/
def setHasBody : List ModFunc → Nat → List ModFunc
  | [], _ => []
  | f :: rest, 0 => ⟨f.name, f.nargs, true⟩ :: rest
  | f :: rest, idx + 1 => f :: setHasBody rest idx

/-- Append an instruction to the `Builder` trace and return its result
value. -/
def emitV (ins : Instr) (trace : List Instr) : Value × List Instr :=
  (.instr trace.length, trace ++ [ins])

mutual

/-- `ExprAST::Codegen` for the four node classes (lines 414–464).
`m` is `TheModule`, `nv` is `NamedValues`, `trace` is the `Builder`
state.  Error strings are exactly the ones in the source (including its
spelling). -/
def codegenExpr (m : List ModFunc) (nv : NamedV) :
    ExprAST → List Instr → Except String Value × List Instr
  | .NumberExpr s, trace => (.ok (.constFP s), trace)
  | .VariableExpr n, trace =>
    match lookupNV n nv with
    | some v => (.ok v, trace)
    | none => (.error "Unkown variable name", trace)
  | .BinaryExpr op l r, trace =>
    match codegenExpr m nv l trace with
    | (resL, trace1) =>
      match codegenExpr m nv r trace1 with
      | (resR, trace2) =>
        match resL, resR with
        | .error e, _ => (.error e, trace2)
        | _, .error e => (.error e, trace2)
        | .ok lv, .ok rv =>
          if op = '+' then
            match emitV (.fadd lv rv) trace2 with
            | (v, trace3) => (.ok v, trace3)
          else if op = '-' then
            match emitV (.fsub lv rv) trace2 with
            | (v, trace3) => (.ok v, trace3)
          else if op = '*' then
            match emitV (.fmul lv rv) trace2 with
            | (v, trace3) => (.ok v, trace3)
          else if op = '<' then
            match emitV (.fcmpULT lv rv) trace2 with
            | (cv, trace3) =>
              match emitV (.uiToFP cv) trace3 with
              | (v, trace4) => (.ok v, trace4)
          else (.error "invalid binary operator", trace2)
  | .CallExpr callee args, trace =>
    match getFunction m callee with
    | none => (.error "unkown function referenced", trace)
    | some (_, f) =>
      if f.nargs ≠ args.length then
        (.error "Incorrect # argmuments passed", trace)
      else
        match codegenArgs m nv args trace with
        | (.error e, trace1) => (.error e, trace1)
        | (.ok vs, trace1) =>
          match emitV (.call callee vs) trace1 with
          | (v, trace2) => (.ok v, trace2)

/-- The argument-lowering loop of `CallExprAST::Codegen` (lines
457–462): left to right, stopping at the first failure. -/
def codegenArgs (m : List ModFunc) (nv : NamedV) :
    List ExprAST → List Instr → Except String (List Value) × List Instr
  | [], trace => (.ok [], trace)
  | a :: rest, trace =>
    match codegenExpr m nv a trace with
    | (.error e, trace1) => (.error e, trace1)
    | (.ok v, trace1) =>
      match codegenArgs m nv rest trace1 with
      | (.error e, trace2) => (.error e, trace2)
      | (.ok vs, trace2) => (.ok (v :: vs), trace2)

end

/-- The whole backend-visible state threaded through declaration-level
lowering: `TheModule`, `NamedValues` and the `Builder` trace. -/
structure CGState where
  module : List ModFunc
  NamedValues : NamedV
  trace : List Instr

/-- `PrototypeAST::Codegen` (lines 466–498).  `Function::Create` with an
already-taken name makes LLVM rename the new function, which the code
detects via `F->getName() != Name`, erasing the fresh function and
switching to the existing one; an existing non-empty body or a
different `arg_size()` is an error, otherwise the existing declaration
is reused.  In every success path the parameter names are then bound
into `NamedValues` (without clearing it).  The returned `Nat` is the
position of the function in the module. -/
def codegenProto (p : PrototypeAST) (st : CGState) :
    Except String Nat × CGState :=
  match getFunction st.module p.Name with
  | none =>
    (.ok st.module.length,
      ⟨st.module ++ [⟨p.Name, p.Args.length, false⟩],
        bindArgs p.Args 0 st.NamedValues, st.trace⟩)
  | some (i, f) =>
    if f.hasBody then (.error "redefinition of function", st)
    else if f.nargs ≠ p.Args.length then
      (.error "redefinition of function with different # args", st)
    else (.ok i, ⟨st.module, bindArgs p.Args 0 st.NamedValues, st.trace⟩)

/-- `FunctionAST::Codegen` (lines 500–518): clear `NamedValues`, lower
the prototype, open the entry block (making the function non-empty),
lower the body; on success emit the `ret` and return the function, on
failure `eraseFromParent` the function and propagate the failure. -/
def codegenFunc (fn : FunctionAST) (st : CGState) :
    Except String Nat × CGState :=
  match codegenProto fn.Proto ⟨st.module, [], st.trace⟩ with
  | (.error e, st1) => (.error e, st1)
  | (.ok i, st1) =>
    let m2 := setHasBody st1.module i
    match codegenExpr m2 st1.NamedValues fn.Body st1.trace with
    | (.ok v, trace2) =>
      (.ok i, ⟨m2, st1.NamedValues, trace2 ++ [.ret v]⟩)
    | (.error e, trace2) =>
      (.error e, ⟨m2.eraseIdx i, st1.NamedValues, trace2⟩)

/-! ## Top-level driver (lines 525–618) -/

/-- `HandleDefinition` (lines 525–538): parse, then lower; if the parse
fails, skip one token (`getNextToken()`); a lowering failure skips
nothing. -/
def HandleDefinition (fuel : Nat) (ts : List Tok) (st : CGState) :
    List Tok × CGState :=
  match ParseDefinition fuel ts with
  | (.ok fnAST, ts1) => (ts1, (codegenFunc fnAST st).2)
  | (.error _, ts1) => (ts1.tail, st)

/-- `HandleExtern` (lines 539–553). -/
def HandleExtern (ts : List Tok) (st : CGState) : List Tok × CGState :=
  match ParseExtern ts with
  | (.ok protoAST, ts1) => (ts1, (codegenProto protoAST st).2)
  | (.error _, ts1) => (ts1.tail, st)

/-- `HandleTopLevelExpression` (lines 554–568). -/
def HandleTopLevelExpression (fuel : Nat) (ts : List Tok) (st : CGState) :
    List Tok × CGState :=
  match ParseTopLevelExpr fuel ts with
  | (.ok fnAST, ts1) => (ts1, (codegenFunc fnAST st).2)
  | (.error _, ts1) => (ts1.tail, st)

/-- `MainLoop` (lines 571–595): dispatch on `CurTok`; `tok_eof` ends the
loop, `';'` is consumed as a no-op, otherwise handle a definition, an
extern declaration or a bare expression.  The outer fuel bounds the
number of loop iterations. -/
def MainLoop : Nat → List Tok → CGState → List Tok × CGState
  | 0, ts, st => (ts, st)
  | fuel + 1, ts, st =>
    match curT ts with
    | .eof => (ts, st)
    | .op ';' => MainLoop fuel ts.tail st
    | .kwDef =>
      match HandleDefinition (parseFuel ts) ts st with
      | (ts1, st1) => MainLoop fuel ts1 st1
    | .kwExtern =>
      match HandleExtern ts st with
      | (ts1, st1) => MainLoop fuel ts1 st1
    | _ =>
      match HandleTopLevelExpression (parseFuel ts) ts st with
      | (ts1, st1) => MainLoop fuel ts1 st1

/-! ## Supporting lemmas -/

/-- The whitespace loop never lengthens the remaining input. -/
theorem skipWS_length_le (look : Option Char) (input : List Char) :
    (skipWS look input).2.length ≤ input.length := by
  induction input generalizing look with
  | nil =>
    cases look with
    | none => simp [skipWS]
    | some c => simp only [skipWS]; split <;> simp
  | cons d r ih =>
    cases look with
    | none => simp [skipWS]
    | some c =>
      simp only [skipWS]
      split
      · exact le_trans (ih (some d)) (by simp)
      · simp

/-- The comment loop consumes at least one character whenever it stops
at a newline (rather than at end of input). -/
theorem skipComment_some_length_lt (input : List Char) (d : Char) (r : List Char)
    (h : skipComment input = (some d, r)) : r.length < input.length := by
  induction input generalizing d r with
  | nil => simp [skipComment] at h
  | cons c rest ih =>
    simp only [skipComment] at h
    split at h
    · cases h; simp
    · exact Nat.lt_trans (ih d r h) (by simp)

/-- Any fuel above the input length computes the same lexer step: the
fuel in `gettokF` is an artefact of the embedding, not of `gettok`. -/
theorem gettokF_congr :
    ∀ (n : Nat) (input : List Char) (look : Option Char) (f1 f2 : Nat),
      input.length ≤ n → input.length < f1 → input.length < f2 →
      gettokF f1 look input = gettokF f2 look input := by
  intro n
  induction n with
  | zero =>
    intro input look f1 f2 hn h1 h2
    obtain ⟨a, rfl⟩ : ∃ a, f1 = a + 1 := ⟨f1 - 1, by omega⟩
    obtain ⟨b, rfl⟩ : ∃ b, f2 = b + 1 := ⟨f2 - 1, by omega⟩
    have hin : input = [] := List.length_eq_zero.mp (Nat.le_zero.mp hn)
    subst hin
    simp only [gettokF]
    rcases hw : skipWS look [] with ⟨look1, input1⟩
    have : input1.length ≤ 0 := by
      have := skipWS_length_le look []
      rw [hw] at this; simpa using this
    have hin1 : input1 = [] := List.length_eq_zero.mp (Nat.le_zero.mp this)
    subst hin1
    cases look1 with
    | none => rfl
    | some c => simp [skipComment]
  | succ n ih =>
    intro input look f1 f2 hn h1 h2
    obtain ⟨a, rfl⟩ : ∃ a, f1 = a + 1 := ⟨f1 - 1, by omega⟩
    obtain ⟨b, rfl⟩ : ∃ b, f2 = b + 1 := ⟨f2 - 1, by omega⟩
    simp only [gettokF]
    rcases hw : skipWS look input with ⟨look1, input1⟩
    have hle : input1.length ≤ input.length := by
      have := skipWS_length_le look input
      rw [hw] at this; exact this
    cases look1 with
    | none => rfl
    | some c =>
      by_cases hA : c.isAlpha = true
      · simp [hA]
      · by_cases hD : (c.isDigit || c == '.') = true
        · simp [hA, hD]
        · by_cases hH : (c == '#') = true
          · simp [hA, hD, hH]
            rcases hc : skipComment input1 with ⟨lk2, in2⟩
            cases lk2 with
            | none => rfl
            | some d =>
              have hlt : in2.length < input1.length :=
                skipComment_some_length_lt input1 d in2 hc
              exact ih in2 (some d) a b (by omega) (by omega) (by omega)
          · simp [hA, hD, hH]

/-- The prototype parameter loop collects exactly the consecutive
identifier tokens that follow the current token, stopping at the first
non-identifier. -/
theorem protoArgs_idents (as : List String) :
    ∀ (x : Tok) (ts : List Tok),
      protoArgs (x :: (as.map Tok.ident ++ (.op ')' :: ts))) = (as, .op ')' :: ts) := by
  induction as with
  | nil => intro x ts; simp [protoArgs, curT]
  | cons a rest ih =>
    intro x ts
    rw [List.map_cons, List.cons_append]
    have h1 : protoArgs (x :: .ident a :: (rest.map Tok.ident ++ (.op ')' :: ts)))
        = (a :: (protoArgs (.ident a :: (rest.map Tok.ident ++ (.op ')' :: ts)))).1,
           (protoArgs (.ident a :: (rest.map Tok.ident ++ (.op ')' :: ts)))).2) := rfl
    rw [h1, ih (.ident a) ts]

/-- Reading an `std::map` after an assignment. -/
theorem lookupNV_insertNV (k y : String) (v : Value) (nv : NamedV) :
    lookupNV y (insertNV k v nv) = if k = y then some v else lookupNV y nv := by
  induction nv with
  | nil => simp [insertNV, lookupNV]
  | cons p rest ih =>
    rcases p with ⟨k', v'⟩
    simp only [insertNV]
    by_cases h : k' = k
    · subst h
      simp only [if_pos rfl, lookupNV]
      by_cases h2 : k' = y
      · simp [h2]
      · simp [h2, lookupNV]
    · simp only [if_neg h, lookupNV]
      by_cases h2 : k' = y
      · have hky : ¬ k = y := fun hk => h (h2.trans hk.symm)
        simp [h2, hky]
      · simp [h2, ih]

/-- A key bound by the parameter-binding loop is one of the parameters;
other keys keep their previous bindings. -/
theorem lookupNV_bindArgs_not_mem (args : List String) :
    ∀ (i : Nat) (nv : NamedV) (k : String), k ∉ args →
      lookupNV k (bindArgs args i nv) = lookupNV k nv := by
  induction args with
  | nil => intro i nv k _; rfl
  | cons a rest ih =>
    intro i nv k hk
    simp only [List.mem_cons, not_or] at hk
    simp only [bindArgs]
    rw [ih (i + 1) _ k hk.2, lookupNV_insertNV,
      if_neg (fun hh => hk.1 hh.symm)]

/-- The parameter-binding loop makes a key resolvable exactly when it is
a parameter or was already bound. -/
theorem lookupNV_bindArgs_isSome (args : List String) :
    ∀ (i : Nat) (nv : NamedV) (k : String),
      (lookupNV k (bindArgs args i nv)).isSome ↔ k ∈ args ∨ (lookupNV k nv).isSome := by
  induction args with
  | nil => intro i nv k; simp [bindArgs]
  | cons a rest ih =>
    intro i nv k
    simp only [bindArgs, List.mem_cons]
    rw [ih]
    rw [lookupNV_insertNV]
    by_cases h : a = k
    · subst h; simp
    · have hk : ¬ k = a := fun hh => h hh.symm
      simp [h, hk]

/-- Shape of a successful `PrototypeAST::Codegen`: the symbol scope is
the previous scope with the parameters bound over it, and the `Builder`
trace is untouched. -/
theorem codegenProto_ok_parts (p : PrototypeAST) (st : CGState) (i : Nat)
    (st' : CGState) (h : codegenProto p st = (.ok i, st')) :
    st'.NamedValues = bindArgs p.Args 0 st.NamedValues ∧ st'.trace = st.trace := by
  unfold codegenProto at h
  rcases hg : getFunction st.module p.Name with _ | ⟨j, f⟩
  · rw [hg] at h
    cases h
    exact ⟨rfl, rfl⟩
  · rw [hg] at h
    by_cases hb : f.hasBody = true
    · simp [hb] at h
    · simp only [hb, Bool.false_eq_true, if_false] at h
      by_cases ha : f.nargs = p.Args.length
      · simp only [ha, ne_eq, not_true_eq_false, if_false, if_neg] at h
        cases h
        exact ⟨rfl, rfl⟩
      · simp [ha] at h

/-- Opening the entry basic block of the function appended at the end of
the module. -/
theorem setHasBody_append (m : List ModFunc) (f : ModFunc) :
    setHasBody (m ++ [f]) m.length = m ++ [⟨f.name, f.nargs, true⟩] := by
  induction m with
  | nil => rfl
  | cons g rest ih => simp [setHasBody, ih]

/-- Erasing the function appended at the end of the module restores the
module. -/
theorem eraseIdx_append (m : List ModFunc) (g : ModFunc) :
    (m ++ [g]).eraseIdx m.length = m := by
  induction m with
  | nil => rfl
  | cons f rest ih => simp [List.eraseIdx, ih]

/-! ## Claims -/

/-- Claim C1: with the default precedence table ('<'=10, '+'=20, '-'=20,
'*'=40), `ParseExpression`/`ParseBinOpRHS` give conventional
mathematical precedence and left-associativity among equal-precedence
operators: for any number literals, `x+y*z` parses to the very same tree
as `x+(y*z)`, `x-y-z` parses to `(x-y)-z`, `x*y+z` to `(x*y)+z` and
`x<y+z` to `x<(y+z)`; in particular `"1+2*3"`
and `"1+(2*3)"` lex-and-parse to the same tree, `"1-2-3"` parses to
`((1-2)-3)`, which is a different tree from `(1-(2-3))`. -/
theorem c1_precedence_and_left_assoc :
    (∀ x y z : String,
      ParseExpression 20 [.num x, .op '+', .num y, .op '*', .num z]
        = ParseExpression 20 [.num x, .op '+', .op '(', .num y, .op '*', .num z, .op ')'])
    ∧ (∀ x y z : String,
      (ParseExpression 20 [.num x, .op '-', .num y, .op '-', .num z]).1
        = .ok (.BinaryExpr '-' (.BinaryExpr '-' (.NumberExpr x) (.NumberExpr y)) (.NumberExpr z)))
    ∧ (∀ x y z : String,
      (ParseExpression 20 [.num x, .op '*', .num y, .op '+', .num z]).1
        = .ok (.BinaryExpr '+' (.BinaryExpr '*' (.NumberExpr x) (.NumberExpr y)) (.NumberExpr z)))
    ∧ (∀ x y z : String,
      (ParseExpression 20 [.num x, .op '<', .num y, .op '+', .num z]).1
        = .ok (.BinaryExpr '<' (.NumberExpr x) (.BinaryExpr '+' (.NumberExpr y) (.NumberExpr z))))
    ∧ parseExpressionTop (lexString "1+2*3") = parseExpressionTop (lexString "1+(2*3)")
    ∧ (parseExpressionTop (lexString "1-2-3")).1
        = .ok (.BinaryExpr '-' (.BinaryExpr '-' (.NumberExpr "1") (.NumberExpr "2")) (.NumberExpr "3"))
    ∧ (ExprAST.BinaryExpr '-' (.BinaryExpr '-' (.NumberExpr "1") (.NumberExpr "2")) (.NumberExpr "3"))
        ≠ (ExprAST.BinaryExpr '-' (.NumberExpr "1") (.BinaryExpr '-' (.NumberExpr "2") (.NumberExpr "3"))) :=
  ⟨fun _ _ _ => rfl, fun _ _ _ => rfl, fun _ _ _ => rfl, fun _ _ _ => rfl, rfl, rfl, by simp⟩

/-- Claim C2, counterexample: `BinaryExprAST::Codegen` runs
`RHS->Codegen()` even when `LHS->Codegen()` has already failed (the code
is `L = LHS->Codegen(); R = RHS->Codegen(); if (!L||!R) return nullptr;`).
Lowering `x - (1+2)` with `x` unbound fails on the left operand, yet the
`fadd` for the right operand has been emitted into the builder — the
claim's "without lowering the right operand" is false. -/
theorem c2_counterexample :
    codegenExpr [] [] (.BinaryExpr '-' (.VariableExpr "x")
        (.BinaryExpr '+' (.NumberExpr "1") (.NumberExpr "2"))) []
      = (.error "Unkown variable name", [.fadd (.constFP "1") (.constFP "2")])
    ∧ (codegenExpr [] [] (.BinaryExpr '-' (.VariableExpr "x")
        (.BinaryExpr '+' (.NumberExpr "1") (.NumberExpr "2"))) []).2 ≠ [] :=
  ⟨rfl, by decide⟩

/-- Claim C2, amended: lowering a BinaryOp evaluates the left operand
before the right operand, but both are lowered unconditionally; if the
left fails, its failure is the propagated result — only after the right
operand has also been lowered (its backend effects occur). -/
theorem c2_eval_order_amended (m : List ModFunc) (nv : NamedV) (op : Char)
    (l r : ExprAST) (trace : List Instr) (e : String)
    (h : (codegenExpr m nv l trace).1 = .error e) :
    codegenExpr m nv (.BinaryExpr op l r) trace
      = (.error e, (codegenExpr m nv r (codegenExpr m nv l trace).2).2) := by
  simp only [codegenExpr]
  rcases hL : codegenExpr m nv l trace with ⟨resL, trace1⟩
  rw [hL] at h
  simp only at h
  subst h
  rcases hR : codegenExpr m nv r trace1 with ⟨resR, trace2⟩
  simp [hL, hR]

/-- Claim C2, witness for the amended theorem. -/
theorem c2_witness :
    codegenExpr [] [] (.BinaryExpr '-' (.VariableExpr "x") (.NumberExpr "1")) []
      = (.error "Unkown variable name",
         (codegenExpr [] [] (.NumberExpr "1") (codegenExpr [] [] (.VariableExpr "x") []).2).2) :=
  c2_eval_order_amended [] [] '-' (.VariableExpr "x") (.NumberExpr "1") []
    "Unkown variable name" rfl

/-- Claim C3, counterexample: prototype parameter lists are NOT
comma-insensitive.  `"foo(a b)"` parses to parameters `["a","b"]`, but
`"foo(a,b)"` — the same parameter list with a comma — is rejected with
"Expected ')' in prototype", because the `','` token ends the
identifier loop before the `')'` is seen. -/
theorem c3_counterexample :
    ParsePrototype (lexString "foo(a,b)")
      = (.error "Expected ')' in prototype", [.op ',', .ident "b", .op ')'])
    ∧ ParsePrototype (lexString "foo(a b)") = (.ok ⟨"foo", ["a", "b"]⟩, []) :=
  ⟨rfl, rfl⟩

/-- Claim C3, amended: the parameter list between '(' and ')' is parsed
as zero or more consecutive identifier tokens with no separator;
whitespace between names is irrelevant, but a comma (or any other
non-identifier token) between parameter names is a parse error
("Expected ')' in prototype"), since it stops the parameter loop before
the closing parenthesis. -/
theorem c3_proto_params_amended :
    (∀ (fn : String) (as : List String) (ts : List Tok),
      ParsePrototype (.ident fn :: .op '(' :: (as.map Tok.ident ++ (.op ')' :: ts)))
        = (.ok ⟨fn, as⟩, ts))
    ∧ (∀ (fn a b : String) (ts : List Tok),
      ParsePrototype (.ident fn :: .op '(' :: .ident a :: .op ',' :: .ident b :: .op ')' :: ts)
        = (.error "Expected ')' in prototype", .op ',' :: .ident b :: .op ')' :: ts)) := by
  constructor
  · intro fn as ts
    have h1 : ParsePrototype (.ident fn :: .op '(' :: (as.map Tok.ident ++ (.op ')' :: ts)))
        = (match protoArgs (.op '(' :: (as.map Tok.ident ++ (.op ')' :: ts))) with
           | (argNames, ts2) =>
             if curT ts2 = .op ')' then (.ok ⟨fn, argNames⟩, ts2.tail)
             else (.error "Expected ')' in prototype", ts2)) := rfl
    rw [h1, protoArgs_idents as (.op '(') ts]
    simp [curT]
  · intro fn a b ts
    rfl

/-- Claim C4, counterexample: a construct that parses but fails at the
lowering stage discards NO token.  `"def foo(a) b 42"` parses as a
definition (body `b`), lowering fails ("Unkown variable name" — `b` is
not a parameter), and `HandleDefinition` leaves the stream exactly at
`42`: zero extra `getNextToken` calls, not the one the claim requires
for "either the parse stage or the lowering stage". -/
theorem c4_counterexample :
    ParseDefinition (parseFuel (lexString "def foo(a) b 42")) (lexString "def foo(a) b 42")
      = (.ok ⟨⟨"foo", ["a"]⟩, .VariableExpr "b"⟩, [.num "42"])
    ∧ (codegenFunc ⟨⟨"foo", ["a"]⟩, .VariableExpr "b"⟩ ⟨[], [], []⟩).1
        = .error "Unkown variable name"
    ∧ (HandleDefinition (parseFuel (lexString "def foo(a) b 42"))
        (lexString "def foo(a) b 42") ⟨[], [], []⟩).1 = [.num "42"]
    ∧ [Tok.num "42"] ≠ [Tok.num "42"].tail :=
  ⟨rfl, rfl, rfl, by decide⟩

/-- Claim C4, amended: exactly one token is discarded when the PARSE of
a top-level construct fails; when the parse succeeds but LOWERING fails,
no extra token is discarded.  In both cases the driver loop resumes: a
malformed construct such as "def foo(a" does not terminate the loop,
which still processes a subsequent valid top-level expression (here
`42`, lowered into an anonymous function whose `ret` is emitted). -/
theorem c4_recovery_amended :
    (∀ (fuel : Nat) (ts : List Tok) (st : CGState) (e : String) (ts1 : List Tok),
      ParseDefinition fuel ts = (.error e, ts1) →
      HandleDefinition fuel ts st = (ts1.tail, st))
    ∧ (∀ (fuel : Nat) (ts : List Tok) (st : CGState) (fn : FunctionAST) (ts1 : List Tok),
      ParseDefinition fuel ts = (.ok fn, ts1) →
      HandleDefinition fuel ts st = (ts1, (codegenFunc fn st).2))
    ∧ MainLoop 10 (lexString "def foo(a ; 42") ⟨[], [], []⟩
        = ([], ⟨[⟨"", 0, true⟩], [], [.ret (.constFP "42")]⟩) := by
  refine ⟨?_, ?_, rfl⟩
  · intro fuel ts st e ts1 h
    simp [HandleDefinition, h]
  · intro fuel ts st fn ts1 h
    simp [HandleDefinition, h]

/-- Claim C4, witness for the amended theorem: the parse-failure branch
on `"def foo(a ; 42"` (one token skipped), and the parse-success branch
on `"def foo(a) b 42"` (stream left unchanged for the codegen result). -/
theorem c4_witness :
    HandleDefinition 30 (lexString "def foo(a ; 42") ⟨[], [], []⟩
      = ([Tok.op ';', Tok.num "42"].tail, ⟨[], [], []⟩)
    ∧ HandleDefinition 40 (lexString "def foo(a) b 42") ⟨[], [], []⟩
      = ([.num "42"], (codegenFunc ⟨⟨"foo", ["a"]⟩, .VariableExpr "b"⟩ ⟨[], [], []⟩).2) :=
  ⟨c4_recovery_amended.1 30 (lexString "def foo(a ; 42") ⟨[], [], []⟩
      "Expected ')' in prototype" [.op ';', .num "42"] rfl,
   c4_recovery_amended.2.1 40 (lexString "def foo(a) b 42") ⟨[], [], []⟩
      ⟨⟨"foo", ["a"]⟩, .VariableExpr "b"⟩ [.num "42"] rfl⟩

/-- Claim C5: `PrototypeAST::Codegen` treats name collisions exactly as
claimed: an existing function with a body is "redefinition of function";
an existing body-less declaration with a different parameter count is
"redefinition of function with different # args"; re-declaring a
body-less function with the same name and count succeeds with the module
unchanged (idempotent); and a `FunctionAST` whose prototype matches a
previously declared body-less function fills in the body successfully
(provided the body itself lowers). -/
theorem c5_proto_redefinition :
    (∀ (p : PrototypeAST) (st : CGState) (i : Nat) (f : ModFunc),
      getFunction st.module p.Name = some (i, f) → f.hasBody = true →
      codegenProto p st = (.error "redefinition of function", st))
    ∧ (∀ (p : PrototypeAST) (st : CGState) (i : Nat) (f : ModFunc),
      getFunction st.module p.Name = some (i, f) → f.hasBody = false →
      f.nargs ≠ p.Args.length →
      codegenProto p st = (.error "redefinition of function with different # args", st))
    ∧ (∀ (p : PrototypeAST) (st : CGState) (i : Nat) (f : ModFunc),
      getFunction st.module p.Name = some (i, f) → f.hasBody = false →
      f.nargs = p.Args.length →
      codegenProto p st = (.ok i, ⟨st.module, bindArgs p.Args 0 st.NamedValues, st.trace⟩))
    ∧ (∀ (fn : FunctionAST) (st : CGState) (i : Nat) (f : ModFunc) (v : Value)
        (trace2 : List Instr),
      getFunction st.module fn.Proto.Name = some (i, f) → f.hasBody = false →
      f.nargs = fn.Proto.Args.length →
      codegenExpr (setHasBody st.module i) (bindArgs fn.Proto.Args 0 [])
          fn.Body st.trace = (.ok v, trace2) →
      codegenFunc fn st
        = (.ok i, ⟨setHasBody st.module i, bindArgs fn.Proto.Args 0 [],
            trace2 ++ [.ret v]⟩)) := by
  refine ⟨?_, ?_, ?_, ?_⟩
  · intro p st i f hg hb
    simp [codegenProto, hg, hb]
  · intro p st i f hg hb ha
    simp [codegenProto, hg, hb, ha]
  · intro p st i f hg hb ha
    simp [codegenProto, hg, hb, ha]
  · intro fn st i f v trace2 hg hb ha hbody
    have hp : codegenProto fn.Proto ⟨st.module, [], st.trace⟩
        = (.ok i, ⟨st.module, bindArgs fn.Proto.Args 0 [], st.trace⟩) := by
      simp [codegenProto, hg, hb, ha]
    simp [codegenFunc, hp, hbody]

/-- Claim C5, witness: concrete instances of all four branches. -/
theorem c5_witness :
    codegenProto ⟨"f", ["x"]⟩ ⟨[⟨"f", 1, true⟩], [], []⟩
      = (.error "redefinition of function", ⟨[⟨"f", 1, true⟩], [], []⟩)
    ∧ codegenProto ⟨"f", ["x"]⟩ ⟨[⟨"f", 2, false⟩], [], []⟩
      = (.error "redefinition of function with different # args", ⟨[⟨"f", 2, false⟩], [], []⟩)
    ∧ codegenProto ⟨"f", ["x"]⟩ ⟨[⟨"f", 1, false⟩], [], []⟩
      = (.ok 0, ⟨[⟨"f", 1, false⟩], bindArgs ["x"] 0 [], []⟩)
    ∧ codegenFunc ⟨⟨"f", ["x"]⟩, .NumberExpr "1"⟩ ⟨[⟨"f", 1, false⟩], [], []⟩
      = (.ok 0, ⟨setHasBody [⟨"f", 1, false⟩] 0, bindArgs ["x"] 0 [],
          [] ++ [.ret (.constFP "1")]⟩) :=
  ⟨c5_proto_redefinition.1 ⟨"f", ["x"]⟩ ⟨[⟨"f", 1, true⟩], [], []⟩ 0 ⟨"f", 1, true⟩ rfl rfl,
   c5_proto_redefinition.2.1 ⟨"f", ["x"]⟩ ⟨[⟨"f", 2, false⟩], [], []⟩ 0 ⟨"f", 2, false⟩
     rfl rfl (by decide),
   c5_proto_redefinition.2.2.1 ⟨"f", ["x"]⟩ ⟨[⟨"f", 1, false⟩], [], []⟩ 0 ⟨"f", 1, false⟩
     rfl rfl rfl,
   c5_proto_redefinition.2.2.2 ⟨⟨"f", ["x"]⟩, .NumberExpr "1"⟩ ⟨[⟨"f", 1, false⟩], [], []⟩
     0 ⟨"f", 1, false⟩ (.constFP "1") [] rfl rfl rfl rfl⟩

/-- Claim C6: `CallExprAST::Codegen` errors with "unkown function
referenced" (sic) when the callee is not registered in the module, with
the distinct error "Incorrect # argmuments passed" (sic) when the callee
exists but `arg_size()` differs from the call's argument count, and only
with an exact count match does lowering proceed to the arguments and the
call instruction.  (The spec quotes the messages with normalized
spelling; the source strings contain the typos reproduced here.) -/
theorem c6_call_errors :
    (∀ (m : List ModFunc) (nv : NamedV) (c : String) (args : List ExprAST)
        (trace : List Instr),
      getFunction m c = none →
      codegenExpr m nv (.CallExpr c args) trace
        = (.error "unkown function referenced", trace))
    ∧ (∀ (m : List ModFunc) (nv : NamedV) (c : String) (args : List ExprAST)
        (trace : List Instr) (i : Nat) (f : ModFunc),
      getFunction m c = some (i, f) → f.nargs ≠ args.length →
      codegenExpr m nv (.CallExpr c args) trace
        = (.error "Incorrect # argmuments passed", trace))
    ∧ "unkown function referenced" ≠ "Incorrect # argmuments passed"
    ∧ (∀ (m : List ModFunc) (nv : NamedV) (c : String) (args : List ExprAST)
        (trace : List Instr) (i : Nat) (f : ModFunc) (vs : List Value)
        (trace1 : List Instr),
      getFunction m c = some (i, f) → f.nargs = args.length →
      codegenArgs m nv args trace = (.ok vs, trace1) →
      codegenExpr m nv (.CallExpr c args) trace
        = (.ok (.instr trace1.length), trace1 ++ [.call c vs])) := by
  refine ⟨?_, ?_, by decide, ?_⟩
  · intro m nv c args trace hg
    simp [codegenExpr, hg]
  · intro m nv c args trace i f hg ha
    simp [codegenExpr, hg, ha]
  · intro m nv c args trace i f vs trace1 hg ha hargs
    simp [codegenExpr, hg, ha, hargs, emitV]

/-- Claim C6, witness: a module with one unary function "f"; calling
"g" is unknown, calling "f" with no arguments is an argument-count
error, calling "f" with one number lowers to a call instruction. -/
theorem c6_witness :
    codegenExpr [⟨"f", 1, false⟩] [] (.CallExpr "g" []) []
      = (.error "unkown function referenced", [])
    ∧ codegenExpr [⟨"f", 1, false⟩] [] (.CallExpr "f" []) []
      = (.error "Incorrect # argmuments passed", [])
    ∧ codegenExpr [⟨"f", 1, false⟩] [] (.CallExpr "f" [.NumberExpr "3"]) []
      = (.ok (.instr 0), [] ++ [.call "f" [.constFP "3"]]) :=
  ⟨c6_call_errors.1 [⟨"f", 1, false⟩] [] "g" [] [] rfl,
   c6_call_errors.2.1 [⟨"f", 1, false⟩] [] "f" [] [] 0 ⟨"f", 1, false⟩ rfl (by decide),
   c6_call_errors.2.2.2 [⟨"f", 1, false⟩] [] "f" [.NumberExpr "3"] [] 0 ⟨"f", 1, false⟩
     [.constFP "3"] [] rfl rfl rfl⟩

/-- Claim C7: `FunctionAST::Codegen` clears `NamedValues` first, so the
result of lowering a Function is independent of whatever the symbol
scope contained before (first conjunct); after the prototype is lowered
from the cleared scope, a name resolves iff it is one of this Function's
own parameters (second conjunct); hence a Variable body whose name is
not among the parameters fails with "Unkown variable name" (sic), no
matter what previous functions bound (third conjunct). -/
theorem c7_scope_isolation :
    (∀ (fn : FunctionAST) (st : CGState) (nv : NamedV),
      codegenFunc fn ⟨st.module, nv, st.trace⟩ = codegenFunc fn st)
    ∧ (∀ (p : PrototypeAST) (st : CGState) (i : Nat) (st' : CGState),
      codegenProto p ⟨st.module, [], st.trace⟩ = (.ok i, st') →
      ∀ y, (lookupNV y st'.NamedValues).isSome ↔ y ∈ p.Args)
    ∧ (∀ (fn : FunctionAST) (st : CGState) (x : String) (i : Nat) (st1 : CGState),
      fn.Body = .VariableExpr x → x ∉ fn.Proto.Args →
      codegenProto fn.Proto ⟨st.module, [], st.trace⟩ = (.ok i, st1) →
      (codegenFunc fn st).1 = .error "Unkown variable name") := by
  refine ⟨?_, ?_, ?_⟩
  · intro fn st nv
    rfl
  · intro p st i st' h y
    have := (codegenProto_ok_parts p ⟨st.module, [], st.trace⟩ i st' h).1
    rw [this, lookupNV_bindArgs_isSome]
    simp [lookupNV]
  · intro fn st x i st1 hbody hx hproto
    have hnv := (codegenProto_ok_parts fn.Proto ⟨st.module, [], st.trace⟩ i st1 hproto).1
    have htr := (codegenProto_ok_parts fn.Proto ⟨st.module, [], st.trace⟩ i st1 hproto).2
    have hlook : lookupNV x st1.NamedValues = none := by
      rw [hnv, lookupNV_bindArgs_not_mem fn.Proto.Args 0 [] x hx]
      rfl
    have hb : codegenExpr (setHasBody st1.module i) st1.NamedValues fn.Body st1.trace
        = (.error "Unkown variable name", st1.trace) := by
      rw [hbody]
      simp [codegenExpr, hlook]
    simp [codegenFunc, hproto, hb]

/-- Claim C7, witness: `def foo(a) b` fails even though an unrelated
earlier binding for `b` sits in the scope before lowering starts, and
the post-prototype scope of `foo` resolves exactly `"a"`. -/
theorem c7_witness :
    (codegenFunc ⟨⟨"foo", ["a"]⟩, .VariableExpr "b"⟩ ⟨[], [("b", .arg 0)], []⟩).1
      = .error "Unkown variable name"
    ∧ ((lookupNV "a" (CGState.NamedValues ⟨[⟨"foo", 1, false⟩], [("a", .arg 0)], []⟩)).isSome
        ↔ "a" ∈ ["a"]) :=
  ⟨c7_scope_isolation.2.2 ⟨⟨"foo", ["a"]⟩, .VariableExpr "b"⟩ ⟨[], [("b", .arg 0)], []⟩
     "b" 0 ⟨[⟨"foo", 1, false⟩], [("a", .arg 0)], []⟩ rfl (by decide) rfl,
   c7_scope_isolation.2.1 ⟨"foo", ["a"]⟩ ⟨[], [("b", .arg 0)], []⟩ 0
     ⟨[⟨"foo", 1, false⟩], [("a", .arg 0)], []⟩ rfl "a"⟩

/-- Claim C8: in `FunctionAST::Codegen`, a body that fails to lower
makes the function be erased from the module (`eraseFromParent`) and the
failure returned; only a successful body sets the return value (the
`ret` instruction) and returns the function.  In the fresh-function case
the module is restored exactly to its previous contents, so no invalid
function remains registered. -/
theorem c8_erase_on_body_failure :
    (∀ (fn : FunctionAST) (st : CGState) (i : Nat) (st1 : CGState) (e : String)
        (trace2 : List Instr),
      codegenProto fn.Proto ⟨st.module, [], st.trace⟩ = (.ok i, st1) →
      codegenExpr (setHasBody st1.module i) st1.NamedValues fn.Body st1.trace
        = (.error e, trace2) →
      codegenFunc fn st
        = (.error e, ⟨(setHasBody st1.module i).eraseIdx i, st1.NamedValues, trace2⟩))
    ∧ (∀ (fn : FunctionAST) (st : CGState) (i : Nat) (st1 : CGState) (v : Value)
        (trace2 : List Instr),
      codegenProto fn.Proto ⟨st.module, [], st.trace⟩ = (.ok i, st1) →
      codegenExpr (setHasBody st1.module i) st1.NamedValues fn.Body st1.trace
        = (.ok v, trace2) →
      codegenFunc fn st
        = (.ok i, ⟨setHasBody st1.module i, st1.NamedValues, trace2 ++ [.ret v]⟩))
    ∧ (∀ (fn : FunctionAST) (st : CGState) (e : String) (trace2 : List Instr),
      getFunction st.module fn.Proto.Name = none →
      codegenExpr
          (setHasBody (st.module ++ [⟨fn.Proto.Name, fn.Proto.Args.length, false⟩])
            st.module.length)
          (bindArgs fn.Proto.Args 0 []) fn.Body st.trace = (.error e, trace2) →
      (codegenFunc fn st).1 = .error e
      ∧ ((codegenFunc fn st).2).module = st.module) := by
  refine ⟨?_, ?_, ?_⟩
  · intro fn st i st1 e trace2 hproto hbody
    simp [codegenFunc, hproto, hbody]
  · intro fn st i st1 v trace2 hproto hbody
    simp [codegenFunc, hproto, hbody]
  · intro fn st e trace2 hg hbody
    have hproto : codegenProto fn.Proto ⟨st.module, [], st.trace⟩
        = (.ok st.module.length,
            ⟨st.module ++ [⟨fn.Proto.Name, fn.Proto.Args.length, false⟩],
              bindArgs fn.Proto.Args 0 [], st.trace⟩) := by
      simp [codegenProto, hg]
    simp only [codegenFunc, hproto, hbody]
    refine ⟨trivial, ?_⟩
    show (setHasBody (st.module ++ [⟨fn.Proto.Name, fn.Proto.Args.length, false⟩])
        st.module.length).eraseIdx st.module.length = st.module
    rw [setHasBody_append, eraseIdx_append]

/-- Claim C8, witness: `def g() q` — the body fails, the freshly created
function is erased (module back to empty), the failure propagates; and
`def h() 5` — the body succeeds, the `ret` is emitted. -/
theorem c8_witness :
    codegenFunc ⟨⟨"g", []⟩, .VariableExpr "q"⟩ ⟨[], [], []⟩
      = (.error "Unkown variable name",
          ⟨(setHasBody [⟨"g", 0, false⟩] 0).eraseIdx 0, [], []⟩)
    ∧ codegenFunc ⟨⟨"h", []⟩, .NumberExpr "5"⟩ ⟨[], [], []⟩
      = (.ok 0, ⟨setHasBody [⟨"h", 0, false⟩] 0, [], [] ++ [.ret (.constFP "5")]⟩) :=
  ⟨c8_erase_on_body_failure.1 ⟨⟨"g", []⟩, .VariableExpr "q"⟩ ⟨[], [], []⟩ 0
     ⟨[⟨"g", 0, false⟩], [], []⟩ "Unkown variable name" [] rfl rfl,
   c8_erase_on_body_failure.2.1 ⟨⟨"h", []⟩, .NumberExpr "5"⟩ ⟨[], [], []⟩ 0
     ⟨[⟨"h", 0, false⟩], [], []⟩ (.constFP "5") [] rfl rfl⟩

/-- Claim C9: the lexer never fails.  `gettok` is a total function into
`Tok` (the token type has no error case), and concretely: any current
character that is not whitespace, not an identifier start, not a
digit/decimal point, and not the comment marker '#' is returned as a
single-character operator token with the cursor advanced by one
`getchar`; at end of input the end-of-input token is returned with the
stream untouched.  The third conjunct shows the embedding's fuel is
inessential: any fuel above the input length computes the same result,
so totality is that of the source's `gettok`. -/
theorem c9_lexer_never_fails :
    (∀ (c : Char) (input : List Char),
      isspaceC c = false → c.isAlpha = false → (c.isDigit || c == '.') = false →
      (c == '#') = false →
      gettok (some c) input = (.op c, getchar input))
    ∧ (∀ input : List Char, gettok none input = (.eof, none, input))
    ∧ (∀ (fuel : Nat) (look : Option Char) (input : List Char),
      input.length < fuel → gettokF fuel look input = gettok look input) := by
  refine ⟨?_, ?_, ?_⟩
  · intro c input hs ha hd hh
    have hw : skipWS (some c) input = (some c, input) := by
      cases input <;> simp [skipWS, hs]
    unfold gettok
    simp only [gettokF]
    rw [hw]
    simp [ha, hd, hh]
  · intro input
    unfold gettok
    simp [gettokF, skipWS]
  · intro fuel look input h
    exact gettokF_congr input.length input look fuel (input.length + 1)
      le_rfl h (Nat.lt_succ_self _)

/-- Claim C9, witness: the unrecognized character '$' comes back as the
operator token '$' with the cursor advanced. -/
theorem c9_witness :
    gettok (some '$') ['x'] = (.op '$', getchar ['x'])
    ∧ gettok none ['x'] = (.eof, none, ['x']) :=
  ⟨c9_lexer_never_fails.1 '$' ['x'] rfl rfl rfl rfl,
   c9_lexer_never_fails.2.1 ['x']⟩

/-- Claim C10: lowering a standalone Prototype — the `HandleExtern` path
for an extern declaration — writes the prototype's parameter names into
the shared `NamedValues` WITHOUT clearing it first: after a successful
`PrototypeAST::Codegen` the scope is the old scope with the parameters
bound over it, every key outside the parameter list keeps its previous
binding, and `HandleExtern` keeps exactly that polluted scope (only the
next `FunctionAST::Codegen` clears it, see the scope-clearing conjunct
of the C7 development). -/
theorem c10_extern_binds_scope :
    (∀ (p : PrototypeAST) (st : CGState) (i : Nat) (st' : CGState),
      codegenProto p st = (.ok i, st') →
      st'.NamedValues = bindArgs p.Args 0 st.NamedValues)
    ∧ (∀ (p : PrototypeAST) (st : CGState) (i : Nat) (st' : CGState) (k : String),
      codegenProto p st = (.ok i, st') → k ∉ p.Args →
      lookupNV k st'.NamedValues = lookupNV k st.NamedValues)
    ∧ (∀ (ts : List Tok) (st : CGState) (p : PrototypeAST) (ts1 : List Tok)
        (i : Nat) (st' : CGState),
      ParseExtern ts = (.ok p, ts1) → codegenProto p st = (.ok i, st') →
      HandleExtern ts st = (ts1, st')) := by
  refine ⟨?_, ?_, ?_⟩
  · intro p st i st' h
    exact (codegenProto_ok_parts p st i st' h).1
  · intro p st i st' k h hk
    rw [(codegenProto_ok_parts p st i st' h).1,
      lookupNV_bindArgs_not_mem p.Args 0 st.NamedValues k hk]
  · intro ts st p ts1 i st' hp hc
    simp [HandleExtern, hp, hc]

/-- Claim C10, witness: `extern sin(t)` lowered in a scope still holding
a binding for "x" (left over from earlier lowering) keeps "x" bound and
adds "t". -/
theorem c10_witness :
    (CGState.NamedValues ⟨[⟨"sin", 1, false⟩], [("x", .arg 0), ("t", .arg 0)], []⟩)
      = bindArgs ["t"] 0 [("x", .arg 0)]
    ∧ lookupNV "x" (CGState.NamedValues
        ⟨[⟨"sin", 1, false⟩], [("x", .arg 0), ("t", .arg 0)], []⟩)
      = lookupNV "x" (CGState.NamedValues ⟨[], [("x", .arg 0)], []⟩)
    ∧ HandleExtern (lexString "extern sin(t)") ⟨[], [("x", .arg 0)], []⟩
      = ([], ⟨[⟨"sin", 1, false⟩], [("x", .arg 0), ("t", .arg 0)], []⟩) :=
  ⟨c10_extern_binds_scope.1 ⟨"sin", ["t"]⟩ ⟨[], [("x", .arg 0)], []⟩ 0
     ⟨[⟨"sin", 1, false⟩], [("x", .arg 0), ("t", .arg 0)], []⟩ rfl,
   c10_extern_binds_scope.2.1 ⟨"sin", ["t"]⟩ ⟨[], [("x", .arg 0)], []⟩ 0
     ⟨[⟨"sin", 1, false⟩], [("x", .arg 0), ("t", .arg 0)], []⟩ "x" rfl (by decide),
   c10_extern_binds_scope.2.2 (lexString "extern sin(t)") ⟨[], [("x", .arg 0)], []⟩
     ⟨"sin", ["t"]⟩ [] 0 ⟨[⟨"sin", 1, false⟩], [("x", .arg 0), ("t", .arg 0)], []⟩
     rfl rfl⟩

end Kaleidoscope
